import Mathlib

/-!
A shallow embedding of the Vesta heating supervisor core
(`custom_components/vesta`): the boiler coordinator's circuit breaker,
demand bookkeeping and state machine (`coordinator.py`), the target-mode
strategies (`target_modes.py`), the thermal-learning regression
(`learning.py`), the window manager (`manager.py`), and the zone demand
computation (`climate.py`).

Timestamps and temperatures are modelled as rationals; a Python
`datetime` becomes a rational number of seconds, a `timedelta` a
rational duration in seconds.  Driver calls and the Home Assistant
state machine are modelled as explicit inputs (`Env`): the outcome a
service call would have is passed in, and each transition function
reports whether the driver was actually invoked.
-/

namespace Vesta

/-! ### Circuit breaker (`coordinator.py`, class `CircuitBreaker`) -/

inductive CBState where
  | closed
  | opened
  | halfOpen
deriving DecidableEq, Repr

structure CircuitBreaker where
  failureThreshold : Nat
  resetTimeout : ℚ
  state : CBState
  failureCount : Nat
  openedUntil : Option ℚ
  halfOpenInFlight : Bool
deriving DecidableEq, Repr

/-- `CircuitBreaker.__init__`: threshold is clamped to at least 1. -/
def mkCircuitBreaker (failureThreshold : Nat) (resetTimeout : ℚ) : CircuitBreaker :=
  { failureThreshold := max 1 failureThreshold
    resetTimeout := resetTimeout
    state := .closed
    failureCount := 0
    openedUntil := none
    halfOpenInFlight := false }

/-- Second half of `can_attempt`: the HALF_OPEN single-trial check. -/
def CircuitBreaker.canAttemptHalfOpen (cb : CircuitBreaker) : Bool × CircuitBreaker :=
  if cb.state = .halfOpen then
    if cb.halfOpenInFlight then (false, cb)
    else (true, { cb with halfOpenInFlight := true })
  else (true, cb)

/-- `CircuitBreaker.can_attempt(now)`: returns the decision and the
mutated breaker (OPEN may transition to HALF_OPEN, HALF_OPEN marks the
trial in flight). -/
def CircuitBreaker.canAttempt (cb : CircuitBreaker) (now : ℚ) : Bool × CircuitBreaker :=
  if cb.state = .opened then
    match cb.openedUntil with
    | some u =>
        if u ≤ now then
          canAttemptHalfOpen { cb with state := .halfOpen, halfOpenInFlight := false }
        else (false, cb)
    | none => (false, cb)
  else cb.canAttemptHalfOpen

/-- `CircuitBreaker.record_success()`. -/
def CircuitBreaker.recordSuccess (cb : CircuitBreaker) : CircuitBreaker :=
  { cb with
    state := .closed
    failureCount := 0
    openedUntil := none
    halfOpenInFlight := false }

/-- `CircuitBreaker._open(now)`. -/
def CircuitBreaker.openBreaker (cb : CircuitBreaker) (now : ℚ) : CircuitBreaker :=
  { cb with
    state := .opened
    openedUntil := some (now + cb.resetTimeout)
    failureCount := 0
    halfOpenInFlight := false }

/-- `CircuitBreaker.record_failure(now)`. -/
def CircuitBreaker.recordFailure (cb : CircuitBreaker) (now : ℚ) : CircuitBreaker :=
  if cb.state = .halfOpen then cb.openBreaker now
  else
    let cb := { cb with failureCount := cb.failureCount + 1 }
    if cb.failureThreshold ≤ cb.failureCount then cb.openBreaker now else cb

/-- `CircuitBreaker.next_attempt_in(now)`. -/
def CircuitBreaker.nextAttemptIn (cb : CircuitBreaker) (now : ℚ) : ℚ :=
  if cb.state = .opened then
    match cb.openedUntil with
    | some u => max 0 (u - now)
    | none => 0
  else 0

end Vesta

namespace Vesta

/-! ### Sanity examples for the breaker -/

example :
    ((mkCircuitBreaker 3 300).recordFailure 0).state = CBState.closed := by
  simp [mkCircuitBreaker, CircuitBreaker.recordFailure, CircuitBreaker.openBreaker]

example :
    ((((mkCircuitBreaker 3 300).recordFailure 0).recordFailure 1).recordFailure
      2).state = CBState.opened := by
  simp [mkCircuitBreaker, CircuitBreaker.recordFailure, CircuitBreaker.openBreaker]

example :
    (((((mkCircuitBreaker 3 300).recordFailure 0).recordFailure 1).recordFailure
      2).canAttempt 100).1 = false := by
  have h3 : (((mkCircuitBreaker 3 300).recordFailure 0).recordFailure 1).recordFailure 2 =
      { failureThreshold := 3, resetTimeout := 300, state := .opened,
        failureCount := 0, openedUntil := some 302, halfOpenInFlight := false } := by
    simp [mkCircuitBreaker, CircuitBreaker.recordFailure, CircuitBreaker.openBreaker]
    norm_num
  rw [h3]
  norm_num [CircuitBreaker.canAttempt, CircuitBreaker.canAttemptHalfOpen]

example :
    (((((mkCircuitBreaker 3 300).recordFailure 0).recordFailure 1).recordFailure
      2).canAttempt 302).1 = true := by
  have h3 : (((mkCircuitBreaker 3 300).recordFailure 0).recordFailure 1).recordFailure 2 =
      { failureThreshold := 3, resetTimeout := 300, state := .opened,
        failureCount := 0, openedUntil := some 302, halfOpenInFlight := false } := by
    simp [mkCircuitBreaker, CircuitBreaker.recordFailure, CircuitBreaker.openBreaker]
    norm_num
  rw [h3]
  norm_num [CircuitBreaker.canAttempt, CircuitBreaker.canAttemptHalfOpen]

end Vesta

namespace Vesta

/-- The breaker after three consecutive failures from a fresh Closed
state. -/
def trippedBreaker (t₁ t₂ t₃ : ℚ) : CircuitBreaker :=
  (((mkCircuitBreaker 3 300).recordFailure t₁).recordFailure
    t₂).recordFailure t₃

/-- C3: with `failureThreshold = 3`, `resetTimeout = 300`, three
consecutive `recordFailure` calls from Closed open the breaker until 300
seconds after the third failure; `canAttempt` is false at every earlier
instant; at or after the deadline the first `canAttempt` is true and a
second call before resolution is false; `recordFailure` while HalfOpen
re-opens with a fresh 300-second timeout; `recordSuccess` returns to
Closed with the failure counter reset. -/
theorem circuit_breaker_contract (t₁ t₂ t₃ u v w : ℚ)
    (hu : u < t₃ + 300) (hv : t₃ + 300 ≤ v) :
    (trippedBreaker t₁ t₂ t₃).state = CBState.opened ∧
    (trippedBreaker t₁ t₂ t₃).openedUntil = some (t₃ + 300) ∧
    ((trippedBreaker t₁ t₂ t₃).canAttempt u).1 = false ∧
    ((trippedBreaker t₁ t₂ t₃).canAttempt v).1 = true ∧
    ((((trippedBreaker t₁ t₂ t₃).canAttempt v).2).canAttempt w).1 = false ∧
    ((((trippedBreaker t₁ t₂ t₃).canAttempt v).2).recordFailure w).state =
      CBState.opened ∧
    ((((trippedBreaker t₁ t₂ t₃).canAttempt v).2).recordFailure
      w).openedUntil = some (w + 300) ∧
    ((((trippedBreaker t₁ t₂ t₃).canAttempt v).2).recordSuccess).state =
      CBState.closed ∧
    ((((trippedBreaker t₁ t₂ t₃).canAttempt v).2).recordSuccess).failureCount
      = 0 := by
  have hnu : ¬ (t₃ + 300 ≤ u) := not_le.mpr hu
  simp [trippedBreaker, mkCircuitBreaker, CircuitBreaker.recordFailure,
    CircuitBreaker.openBreaker, CircuitBreaker.canAttempt,
    CircuitBreaker.canAttemptHalfOpen, CircuitBreaker.recordSuccess, hnu, hv]

/-- Witness for `circuit_breaker_contract` at concrete times. -/
theorem circuit_breaker_contract_witness :
    (100 : ℚ) < 2 + 300 ∧ (2 : ℚ) + 300 ≤ 302 ∧
    (((trippedBreaker 0 1 2).canAttempt 302).2.recordFailure
      400).openedUntil = some (400 + 300) :=
  ⟨by norm_num, by norm_num,
    (circuit_breaker_contract 0 1 2 100 302 400 (by norm_num)
      (by norm_num)).2.2.2.2.2.2.1⟩

end Vesta

namespace Vesta

/-! ### Target modes (`target_modes.py`) -/

def MIN_TARGET_TEMP : ℚ := 5
def MAX_TARGET_TEMP : ℚ := 30

structure TargetContext where
  scheduleTarget : Option ℚ
  offTemp : ℚ
  comfortTemp : ℚ
  ecoTemp : ℚ
  hasPresenceSensors : Bool
  presenceOn : Bool
deriving DecidableEq, Repr

/-- The closed set of target-mode variants: `ScheduledTargetMode`,
`EcoTargetMode`, `BoostTargetMode`, `SaveTargetMode`, `PreheatTargetMode`,
`FailsafeTargetMode`. -/
inductive TargetModeV where
  | scheduled
  | eco
  | boost (targetTemp : ℚ)
  | save (targetTemp : ℚ)
  | preheat (targetTemp : ℚ)
  | failsafe (targetTemp : ℚ)
deriving DecidableEq, Repr

/-- `_apply_presence_boost`. -/
def applyPresenceBoost (target : ℚ) (c : TargetContext) : ℚ :=
  if c.hasPresenceSensors ∧ c.presenceOn ∧ target ≤ c.offTemp then
    max target c.comfortTemp
  else target

/-- `_clamp_target`. -/
def clampTarget (target : ℚ) : ℚ :=
  max MIN_TARGET_TEMP (min MAX_TARGET_TEMP target)

/-- `_get_raw_target` of each variant. -/
def getRawTarget : TargetModeV → TargetContext → Option ℚ
  | .scheduled, c =>
      match c.scheduleTarget with
      | some t => some t
      | none => some c.offTemp
  | .eco, c => some c.ecoTemp
  | .boost t, _ => some t
  | .save t, _ => some t
  | .preheat t, _ => some t
  | .failsafe t, _ => some t

/-- `_should_apply_presence_boost`: the base class returns `True`
(inherited by Scheduled and Eco); Boost, Save, Preheat and Failsafe
override it to `False`. -/
def shouldApplyPresenceBoost : TargetModeV → Bool
  | .scheduled => true
  | .eco => true
  | .boost _ => false
  | .save _ => false
  | .preheat _ => false
  | .failsafe _ => false

/-- `TargetMode.calculate_final_target`. -/
def calculateFinalTarget (m : TargetModeV) (c : TargetContext) : Option ℚ :=
  match getRawTarget m c with
  | none => none
  | some raw =>
      let raw := if shouldApplyPresenceBoost m then applyPresenceBoost raw c else raw
      some (clampTarget raw)

/-- C6: `ScheduledTargetMode` with `scheduleTarget = None`, `offTemp = 12`,
`comfortTemp = 20`, presence sensors present and presence on yields a
final target of 20 (the raw target falls back to `offTemp`, the presence
boost raises it to the comfort temperature, and the clamp to `[5, 30]`
leaves it unchanged); the presence boost is consulted only by the
Scheduled and Eco modes, and the Boost, Save, Preheat and Failsafe modes
always return the bare clamped raw target. -/
theorem scheduled_presence_boost_final_target (eco : ℚ) :
    calculateFinalTarget .scheduled
      { scheduleTarget := none, offTemp := 12, comfortTemp := 20,
        ecoTemp := eco, hasPresenceSensors := true, presenceOn := true } = some 20 ∧
    (∀ (c : TargetContext) (t : ℚ),
      calculateFinalTarget (.boost t) c = some (clampTarget t) ∧
      calculateFinalTarget (.save t) c = some (clampTarget t) ∧
      calculateFinalTarget (.preheat t) c = some (clampTarget t) ∧
      calculateFinalTarget (.failsafe t) c = some (clampTarget t)) ∧
    (∀ m : TargetModeV,
      shouldApplyPresenceBoost m = true ↔ m = .scheduled ∨ m = .eco) := by
  refine ⟨?_, ?_, ?_⟩
  · norm_num [calculateFinalTarget, getRawTarget, shouldApplyPresenceBoost,
      applyPresenceBoost, clampTarget, MIN_TARGET_TEMP, MAX_TARGET_TEMP]
  · intro c t
    simp [calculateFinalTarget, getRawTarget, shouldApplyPresenceBoost]
  · intro m
    cases m <;> simp [shouldApplyPresenceBoost]

end Vesta

namespace Vesta

/-! ### Generic association-list operations (Python `dict` semantics:
lookup by key; assignment updates in place or appends). -/

def alistGet? {α : Type} (m : List (String × α)) (k : String) : Option α :=
  match m with
  | [] => none
  | (k', v) :: rest => if k' = k then some v else alistGet? rest k

def alistSet {α : Type} (m : List (String × α)) (k : String) (v : α) :
    List (String × α) :=
  match m with
  | [] => [(k, v)]
  | (k', v') :: rest =>
      if k' = k then (k, v) :: rest else (k', v') :: alistSet rest k v

end Vesta

namespace Vesta

/-! ### Thermal learning (`learning.py`, class `VestaLearning`) -/

def DEFAULT_RATE : ℚ := 3/2
def DEFAULT_COOLING_RATE : ℚ := 1/2
def MIN_HISTORY_POINTS : Nat := 5
def RATE_MIN : ℚ := 1/10
def RATE_MAX : ℚ := 5

/-- `_history_points`: a raw history entry is modelled as
`Option (ℚ × ℚ)` — `some (outdoor, rate)` for an entry the source's
validation accepts (a dict with both keys, float-convertible, finite),
`none` for any entry it rejects. -/
def historyPoints (history : List (Option (ℚ × ℚ))) : List (ℚ × ℚ) :=
  history.filterMap id

/-- `_linear_regression`. -/
def linearRegression (points : List (ℚ × ℚ)) : Option (ℚ × ℚ) :=
  let n : ℚ := points.length
  if points.length = 0 then none
  else
    let sumX := (points.map Prod.fst).sum
    let sumY := (points.map Prod.snd).sum
    let sumXY := (points.map fun p => p.1 * p.2).sum
    let sumX2 := (points.map fun p => p.1 ^ 2).sum
    let denominator := n * sumX2 - sumX ^ 2
    if denominator = 0 then none
    else
      let slope := (n * sumXY - sumX * sumY) / denominator
      let intercept := (sumY - slope * sumX) / n
      some (slope, intercept)

/-- `_predict_rate`. -/
def predictRate (history : List (Option (ℚ × ℚ))) (outdoorTemp : ℚ) :
    Option ℚ :=
  let points := historyPoints history
  if points.length < MIN_HISTORY_POINTS then none
  else
    match linearRegression points with
    | none => none
    | some (slope, intercept) =>
        some (max RATE_MIN (min RATE_MAX (slope * outdoorTemp + intercept)))

structure VestaLearning where
  heatingHistory : List (String × List (Option (ℚ × ℚ)))
  coolingHistory : List (String × List (Option (ℚ × ℚ)))
deriving DecidableEq

/-- `get_rate(zone_id, outdoor_temp)`: `none` models a missing or
non-finite outdoor reading. -/
def VestaLearning.getRate (L : VestaLearning) (zoneId : String)
    (outdoorTemp : Option ℚ) : ℚ :=
  match outdoorTemp with
  | none => DEFAULT_RATE
  | some t =>
      match predictRate ((alistGet? L.heatingHistory zoneId).getD []) t with
      | some r => r
      | none => DEFAULT_RATE

/-- `get_cooling_rate(zone_id, outdoor_temp)`. -/
def VestaLearning.getCoolingRate (L : VestaLearning) (zoneId : String)
    (outdoorTemp : Option ℚ) : ℚ :=
  match outdoorTemp with
  | none => DEFAULT_COOLING_RATE
  | some t =>
      match predictRate ((alistGet? L.coolingHistory zoneId).getD []) t with
      | some r => r
      | none => DEFAULT_COOLING_RATE

/-- Sum of first components of a constant-first-component list. -/
theorem sum_map_fst_of_const {c : ℚ} :
    ∀ {pts : List (ℚ × ℚ)}, (∀ p ∈ pts, p.1 = c) →
      (pts.map Prod.fst).sum = pts.length * c := by
  intro pts
  induction pts with
  | nil => intro _; simp
  | cons p rest ih =>
      intro h
      have hp : p.1 = c := h p (List.mem_cons_self p rest)
      have hr := ih (fun q hq => h q (List.mem_cons_of_mem p hq))
      simp [hp, hr]
      ring

/-- Sum of squared first components of a constant-first-component list. -/
theorem sum_map_fst_sq_of_const {c : ℚ} :
    ∀ {pts : List (ℚ × ℚ)}, (∀ p ∈ pts, p.1 = c) →
      (pts.map fun p => p.1 ^ 2).sum = pts.length * c ^ 2 := by
  intro pts
  induction pts with
  | nil => intro _; simp
  | cons p rest ih =>
      intro h
      have hp : p.1 = c := h p (List.mem_cons_self p rest)
      have hr := ih (fun q hq => h q (List.mem_cons_of_mem p hq))
      simp [hp, hr]
      ring

/-- A zero-variance point set makes the regression denominator vanish. -/
theorem regression_denominator_zero {pts : List (ℚ × ℚ)} {c : ℚ}
    (h : ∀ p ∈ pts, p.1 = c) :
    (pts.length : ℚ) * (pts.map fun p => p.1 ^ 2).sum -
      ((pts.map Prod.fst).sum) ^ 2 = 0 := by
  rw [sum_map_fst_of_const h, sum_map_fst_sq_of_const h]
  ring

end Vesta

namespace Vesta

/-- C7: with fewer than 5 valid history points `get_rate` returns the
default 1.5 and `get_cooling_rate` the default 0.5; with 5 or more
points the ordinary-least-squares prediction `slope * outdoorTemp +
intercept` is returned, clamped to `[0.1, 5.0]`; and when all outdoor
readings in the history share one value (zero variance, degenerate
regression) the fixed default is returned. -/
theorem get_rate_regression_contract (L : VestaLearning) (z : String) (t : ℚ) :
    let heatPts := historyPoints ((alistGet? L.heatingHistory z).getD [])
    let coolPts := historyPoints ((alistGet? L.coolingHistory z).getD [])
    (heatPts.length < 5 → L.getRate z (some t) = 3/2) ∧
    (coolPts.length < 5 → L.getCoolingRate z (some t) = 1/2) ∧
    (5 ≤ heatPts.length →
      (heatPts.length : ℚ) * (heatPts.map fun p => p.1 ^ 2).sum -
          ((heatPts.map Prod.fst).sum) ^ 2 ≠ 0 →
      L.getRate z (some t) =
        max (1/10) (min 5
          ((((heatPts.length : ℚ) * (heatPts.map fun p => p.1 * p.2).sum -
              (heatPts.map Prod.fst).sum * (heatPts.map Prod.snd).sum) /
            ((heatPts.length : ℚ) * (heatPts.map fun p => p.1 ^ 2).sum -
              ((heatPts.map Prod.fst).sum) ^ 2)) * t +
           ((heatPts.map Prod.snd).sum -
              (((heatPts.length : ℚ) * (heatPts.map fun p => p.1 * p.2).sum -
                 (heatPts.map Prod.fst).sum * (heatPts.map Prod.snd).sum) /
               ((heatPts.length : ℚ) * (heatPts.map fun p => p.1 ^ 2).sum -
                 ((heatPts.map Prod.fst).sum) ^ 2)) * (heatPts.map Prod.fst).sum) /
             (heatPts.length : ℚ)))) ∧
    (5 ≤ coolPts.length →
      (coolPts.length : ℚ) * (coolPts.map fun p => p.1 ^ 2).sum -
          ((coolPts.map Prod.fst).sum) ^ 2 ≠ 0 →
      L.getCoolingRate z (some t) =
        max (1/10) (min 5
          ((((coolPts.length : ℚ) * (coolPts.map fun p => p.1 * p.2).sum -
              (coolPts.map Prod.fst).sum * (coolPts.map Prod.snd).sum) /
            ((coolPts.length : ℚ) * (coolPts.map fun p => p.1 ^ 2).sum -
              ((coolPts.map Prod.fst).sum) ^ 2)) * t +
           ((coolPts.map Prod.snd).sum -
              (((coolPts.length : ℚ) * (coolPts.map fun p => p.1 * p.2).sum -
                 (coolPts.map Prod.fst).sum * (coolPts.map Prod.snd).sum) /
               ((coolPts.length : ℚ) * (coolPts.map fun p => p.1 ^ 2).sum -
                 ((coolPts.map Prod.fst).sum) ^ 2)) * (coolPts.map Prod.fst).sum) /
             (coolPts.length : ℚ)))) ∧
    (∀ c : ℚ, (∀ p ∈ heatPts, p.1 = c) → L.getRate z (some t) = 3/2) ∧
    (∀ c : ℚ, (∀ p ∈ coolPts, p.1 = c) → L.getCoolingRate z (some t) = 1/2) := by
  intro heatPts coolPts
  refine ⟨?_, ?_, ?_, ?_, ?_, ?_⟩
  · intro h
    simp only [VestaLearning.getRate, predictRate, MIN_HISTORY_POINTS]
    rw [if_pos h]
    rfl
  · intro h
    simp only [VestaLearning.getCoolingRate, predictRate, MIN_HISTORY_POINTS]
    rw [if_pos h]
    rfl
  · intro h5 hden
    have hlt : ¬ (heatPts.length < 5) := not_lt.mpr h5
    have hne : ¬ (heatPts.length = 0) := by omega
    simp only [VestaLearning.getRate, predictRate, MIN_HISTORY_POINTS,
      linearRegression]
    rw [if_neg hlt, if_neg hne, if_neg hden]
    simp only [RATE_MIN, RATE_MAX]
  · intro h5 hden
    have hlt : ¬ (coolPts.length < 5) := not_lt.mpr h5
    have hne : ¬ (coolPts.length = 0) := by omega
    simp only [VestaLearning.getCoolingRate, predictRate, MIN_HISTORY_POINTS,
      linearRegression]
    rw [if_neg hlt, if_neg hne, if_neg hden]
    simp only [RATE_MIN, RATE_MAX]
  · intro c hall
    have hden := regression_denominator_zero hall
    simp only [VestaLearning.getRate, predictRate, MIN_HISTORY_POINTS,
      linearRegression]
    by_cases hlt : heatPts.length < 5
    · rw [if_pos hlt]; rfl
    · rw [if_neg hlt]
      have hne : ¬ (heatPts.length = 0) := by omega
      rw [if_neg hne, if_pos hden]; rfl
  · intro c hall
    have hden := regression_denominator_zero hall
    simp only [VestaLearning.getCoolingRate, predictRate, MIN_HISTORY_POINTS,
      linearRegression]
    by_cases hlt : coolPts.length < 5
    · rw [if_pos hlt]; rfl
    · rw [if_neg hlt]
      have hne : ¬ (coolPts.length = 0) := by omega
      rw [if_neg hne, if_pos hden]; rfl

/-- A five-point heating history with unit slope and intercept 1. -/
def learnFitSample : VestaLearning :=
  { heatingHistory :=
      [("z", [some (0, 1), some (1, 2), some (2, 3), some (3, 4), some (4, 5)])]
    coolingHistory := [("z", [some (7, 1), some (7, 2), none])] }

/-- A five-point cooling history with unit slope and intercept 1. -/
def learnCoolFitSample : VestaLearning :=
  { heatingHistory := []
    coolingHistory :=
      [("z", [some (0, 1), some (1, 2), some (2, 3), some (3, 4), some (4, 5)])] }

/-- Witness for `get_rate_regression_contract`: a two-valid-point cooling
history returns the cooling default, the five-point heating history with
distinct outdoor readings returns the clamped OLS prediction (slope 1,
intercept 1, evaluated at 2, giving 3), and the five-point cooling
history does the same through `getCoolingRate`. -/
theorem get_rate_regression_contract_witness :
    (historyPoints ((alistGet? learnFitSample.coolingHistory "z").getD [])).length < 5 ∧
    learnFitSample.getCoolingRate "z" (some 2) = 1/2 ∧
    5 ≤ (historyPoints ((alistGet? learnFitSample.heatingHistory "z").getD [])).length ∧
    learnFitSample.getRate "z" (some 2) = 3 ∧
    5 ≤ (historyPoints ((alistGet? learnCoolFitSample.coolingHistory "z").getD [])).length ∧
    learnCoolFitSample.getCoolingRate "z" (some 2) = 3 := by
  have hc := (get_rate_regression_contract learnFitSample "z" 2).2.1
  have hh := (get_rate_regression_contract learnFitSample "z" 2).2.2.1
  have hcc := (get_rate_regression_contract learnCoolFitSample "z" 2).2.2.2.1
  have hlen : (historyPoints ((alistGet? learnFitSample.coolingHistory "z").getD [])).length = 2 := by
    simp [learnFitSample, historyPoints, alistGet?]
  have hlenH : (historyPoints ((alistGet? learnFitSample.heatingHistory "z").getD [])).length = 5 := by
    simp [learnFitSample, historyPoints, alistGet?]
  have hlenC : (historyPoints ((alistGet? learnCoolFitSample.coolingHistory "z").getD [])).length = 5 := by
    simp [learnCoolFitSample, historyPoints, alistGet?]
  refine ⟨by omega, hc (by omega), by omega, ?_, by omega, ?_⟩
  · have hpts : historyPoints ((alistGet? learnFitSample.heatingHistory "z").getD []) =
        [(0, 1), (1, 2), (2, 3), (3, 4), (4, 5)] := by
      simp [learnFitSample, historyPoints, alistGet?]
    rw [hpts] at hh
    have := hh (by norm_num) (by norm_num)
    rw [this]
    norm_num
  · have hpts : historyPoints ((alistGet? learnCoolFitSample.coolingHistory "z").getD []) =
        [(0, 1), (1, 2), (2, 3), (3, 4), (4, 5)] := by
      simp [learnCoolFitSample, historyPoints, alistGet?]
    rw [hpts] at hcc
    have := hcc (by norm_num) (by norm_num)
    rw [this]
    norm_num

end Vesta

namespace Vesta

/-! ### Window manager (`manager.py`, `_WindowState` hierarchy and
`WindowManager`) -/

inductive WState where
  | monitoring
  | sensorOpen
  | hold
  | sensorOpenHold
deriving DecidableEq, Repr

def WState.windowOpen : WState → Bool
  | .sensorOpen => true
  | .sensorOpenHold => true
  | _ => false

def WState.holdActive : WState → Bool
  | .hold => true
  | .sensorOpenHold => true
  | _ => false

def WState.onSensorChange : WState → Bool → WState
  | .monitoring, b => if b then .sensorOpen else .monitoring
  | .sensorOpen, b => if b then .sensorOpen else .monitoring
  | .hold, b => if b then .sensorOpenHold else .hold
  | .sensorOpenHold, b => if b then .sensorOpenHold else .hold

/-- `on_hold_started`: the base class leaves the state unchanged; only
Monitoring and SensorOpen override it. -/
def WState.onHoldStarted : WState → WState
  | .monitoring => .hold
  | .sensorOpen => .sensorOpenHold
  | s => s

/-- `on_hold_cleared`: the base class leaves the state unchanged; only
Hold and SensorOpenHold override it. -/
def WState.onHoldCleared : WState → WState
  | .hold => .monitoring
  | .sensorOpenHold => .sensorOpen
  | s => s

structure WindowManager where
  windowThreshold : ℚ
  holdDuration : ℚ
  wstate : WState
  windowHoldUntil : Option ℚ
  tempHistory : List (ℚ × ℚ)
deriving DecidableEq, Repr

def mkWindowManager (threshold holdDuration : ℚ) : WindowManager :=
  { windowThreshold := threshold
    holdDuration := holdDuration
    wstate := .monitoring
    windowHoldUntil := none
    tempHistory := [] }

/-- `_trigger_window_hold` (the timer re-arm is modelled by
`clearHold` below firing later). -/
def WindowManager.triggerWindowHold (w : WindowManager) (now : ℚ) :
    WindowManager :=
  { w with
    windowHoldUntil := some (now + w.holdDuration)
    wstate := w.wstate.onHoldStarted }

/-- The `_clear_hold` timer callback. -/
def WindowManager.clearHold (w : WindowManager) : WindowManager :=
  { w with
    windowHoldUntil := none
    wstate := w.wstate.onHoldCleared }

/-- `record_temperature(temperature)` at time `now`: returns whether a
window-open hold was inferred, plus the updated manager. -/
def WindowManager.recordTemperature (w : WindowManager) (now temperature : ℚ) :
    Bool × WindowManager :=
  let history := (w.tempHistory ++ [(now, temperature)]).filter
    (fun p => now - 180 ≤ p.1)
  if history.length < 2 then (false, { w with tempHistory := history })
  else
    match history with
    | [] => (false, { w with tempHistory := history })
    | (oldestTs, oldestTemp) :: _ =>
        let minutes := (now - oldestTs) / 60
        if minutes ≤ 0 then (false, { w with tempHistory := history })
        else
          let drop := oldestTemp - temperature
          let rate := drop / minutes
          if 1/2 ≤ drop ∨ w.windowThreshold ≤ rate then
            (true, { w.triggerWindowHold now with tempHistory := [] })
          else (false, { w with tempHistory := history })

/-- `is_hold_active(now)`. -/
def WindowManager.isHoldActive (w : WindowManager) (now : ℚ) : Bool :=
  match w.windowHoldUntil with
  | none => false
  | some u => w.wstate.holdActive && decide (now < u)

/-- `is_forced_off(now)`. -/
def WindowManager.isForcedOff (w : WindowManager) (now : ℚ) : Bool :=
  w.wstate.windowOpen || w.isHoldActive now

/-- The window manager with drop-rate threshold 0.2 °C/min and a
15-minute hold, after one sample of 20 °C at t = 0. -/
def wmFirstSample : Bool × WindowManager :=
  (mkWindowManager (1/5) 900).recordTemperature 0 20

/-- C8: with drop-rate threshold 0.2 °C/min and a 15-minute hold, two
samples one minute apart dropping 0.05 °C trigger no hold and leave the
zone unforced, while two samples one minute apart dropping 2.0 °C
trigger a hold; after the trigger `is_forced_off` is true at every
instant before the hold deadline (one minute plus fifteen minutes after
the first sample) and false again once the hold timer fires (no
physical window sensor reports open in either run). -/
theorem window_drop_inference_contract :
    wmFirstSample.1 = false ∧
    (wmFirstSample.2.recordTemperature 60 (20 - 1/20)).1 = false ∧
    (∀ q : ℚ, (wmFirstSample.2.recordTemperature 60
      (20 - 1/20)).2.isForcedOff q = false) ∧
    (wmFirstSample.2.recordTemperature 60 18).1 = true ∧
    (wmFirstSample.2.recordTemperature 60 18).2.windowHoldUntil =
      some 960 ∧
    (∀ q : ℚ, q < 960 →
      (wmFirstSample.2.recordTemperature 60 18).2.isForcedOff q = true) ∧
    (∀ q : ℚ,
      (wmFirstSample.2.recordTemperature 60 18).2.clearHold.isForcedOff q =
        false) := by
  have h₁ : wmFirstSample =
      (false, { windowThreshold := 1/5, holdDuration := 900,
                wstate := .monitoring, windowHoldUntil := none,
                tempHistory := [(0, 20)] }) := by
    norm_num [wmFirstSample, mkWindowManager, WindowManager.recordTemperature]
  have hA : ({ windowThreshold := 1/5, holdDuration := 900,
               wstate := .monitoring, windowHoldUntil := none,
               tempHistory := [(0, 20)] } :
        WindowManager).recordTemperature 60 (20 - 1/20) =
      (false, { windowThreshold := 1/5, holdDuration := 900,
                wstate := .monitoring, windowHoldUntil := none,
                tempHistory := [(0, 20), (60, 20 - 1/20)] }) := by
    norm_num [WindowManager.recordTemperature]
  have hB : ({ windowThreshold := 1/5, holdDuration := 900,
               wstate := .monitoring, windowHoldUntil := none,
               tempHistory := [(0, 20)] } :
        WindowManager).recordTemperature 60 18 =
      (true, { windowThreshold := 1/5, holdDuration := 900,
               wstate := .hold, windowHoldUntil := some 960,
               tempHistory := [] }) := by
    norm_num [WindowManager.recordTemperature, WindowManager.triggerWindowHold,
      WState.onHoldStarted]
  refine ⟨?_, ?_, ?_, ?_, ?_, ?_, ?_⟩
  · rw [h₁]
  · rw [h₁, hA]
  · intro q
    rw [h₁, hA]
    simp [WindowManager.isForcedOff, WindowManager.isHoldActive,
      WState.windowOpen]
  · rw [h₁, hB]
  · rw [h₁, hB]
  · intro q hq
    rw [h₁, hB]
    simp [WindowManager.isForcedOff, WindowManager.isHoldActive,
      WState.windowOpen, WState.holdActive, hq]
  · intro q
    rw [h₁, hB]
    simp [WindowManager.clearHold, WState.onHoldCleared,
      WindowManager.isForcedOff, WindowManager.isHoldActive,
      WState.windowOpen]

/-- Witness for `window_drop_inference_contract`, exercising the
hold window at `q = 100`. -/
theorem window_drop_inference_contract_witness :
    (100 : ℚ) < 960 ∧
    ((wmFirstSample.2.recordTemperature 60 18).2.isForcedOff 100) = true :=
  ⟨by norm_num, window_drop_inference_contract.2.2.2.2.2.1 100 (by norm_num)⟩

end Vesta

namespace Vesta

/-! ### Zone demand (`climate.py`, `VestaClimate._update_demand`) -/

/-- The demand decision of `_update_demand`: demand is true exactly when
the zone is not forced off, a target exists, a current temperature
exists, and `current + 0.1 < target`. -/
def computeDemand (forcedOff : Bool) (target current : Option ℚ) : Bool :=
  if forcedOff = false ∧ target ≠ none then
    match current, target with
    | some cur, some tgt => decide (cur + 1/10 < tgt)
    | _, _ => false
  else false

example : computeDemand false (some 20) (some 18) = true := by
  simp [computeDemand]
  norm_num

example : computeDemand false (some 20) (some (199/10)) = false := by
  simp [computeDemand]
  norm_num

/-- C10: a zone whose current temperature is unknown (`None`) never
computes demand, whatever the forced-off flag and effective target. -/
theorem no_temperature_no_demand (forcedOff : Bool) (target : Option ℚ) :
    computeDemand forcedOff target none = false := by
  cases target <;> simp [computeDemand]

end Vesta

namespace Vesta

/-! ### Boiler coordinator (`coordinator.py`, class `BoilerCoordinator`)

The coordinator's mutable attributes become a record; `async_call_later`
handles become booleans recording whether a timer is pending; the master
switch reading and the outcome a boiler-driver command would report are
explicit inputs of each decision round (`Env`).  Fields that only gate
log output (`_master_state_warned`) are omitted.  Each transition
reports whether the boiler driver was actually invoked. -/

inductive BoilerState where
  | idle
  | antiCycleCooldown
  | firing
  | failsafe
deriving DecidableEq, Repr

inductive MasterState where
  | on
  | off
  | unavailable
  | unknown
  | other
deriving DecidableEq, Repr

structure Env where
  master : MasterState
  now : ℚ
  onSuccess : Bool
  offSuccess : Bool
  offWasOn : Bool
deriving DecidableEq, Repr

structure Coordinator where
  minCycle : ℚ
  demand : List (String × Bool)
  pendingDemand : List (String × Bool)
  bstate : BoilerState
  cooldownUntil : Option ℚ
  breaker : CircuitBreaker
  debounceScheduled : Bool
  retryScheduled : Bool
  retryAttempts : Nat
deriving DecidableEq, Repr

def FAILSAFE_RETRY_SECONDS : ℚ := 60
def RETRY_MAX_SECONDS : ℚ := 3600

def mkCoordinator (minCycle : ℚ) : Coordinator :=
  { minCycle := minCycle
    demand := []
    pendingDemand := []
    bstate := .idle
    cooldownUntil := none
    breaker := mkCircuitBreaker 3 300
    debounceScheduled := false
    retryScheduled := false
    retryAttempts := 0 }

/-- The loop of `_apply_pending_demand_updates`: each pending entry is
compared against the (partially updated) demand map, then written. -/
def applyPendingLoop :
    List (String × Bool) → List (String × Bool) → Bool →
      Bool × List (String × Bool)
  | [], m, changed => (changed, m)
  | (z, d) :: rest, m, changed =>
      applyPendingLoop rest (alistSet m z d)
        (changed || decide (alistGet? m z ≠ some d))

/-- `_apply_pending_demand_updates`. -/
def Coordinator.applyPendingDemandUpdates (c : Coordinator) :
    Bool × Coordinator :=
  if c.pendingDemand.isEmpty then (false, c)
  else
    let r := applyPendingLoop c.pendingDemand c.demand false
    (r.1, { c with demand := r.2, pendingDemand := [] })

/-- `_cooldown_remaining(now)`. -/
def Coordinator.cooldownRemaining (c : Coordinator) (now : ℚ) : ℚ :=
  match c.cooldownUntil with
  | none => 0
  | some u => max 0 (u - now)

/-- `_enter_cooldown(now)`. -/
def Coordinator.enterCooldown (c : Coordinator) (now : ℚ) : Coordinator :=
  if c.minCycle ≤ 0 then
    { c with cooldownUntil := none, bstate := .idle }
  else
    { c with cooldownUntil := some (now + c.minCycle * 60),
             bstate := .antiCycleCooldown }

/-- `_update_cooldown_state(now)`. -/
def Coordinator.updateCooldownState (c : Coordinator) (now : ℚ) :
    Coordinator :=
  match c.cooldownUntil with
  | none =>
      if c.bstate = .antiCycleCooldown then { c with bstate := .idle } else c
  | some u =>
      if u ≤ now then
        if c.bstate = .antiCycleCooldown then
          { c with cooldownUntil := none, bstate := .idle }
        else { c with cooldownUntil := none }
      else
        if c.bstate ≠ .firing ∧ c.bstate ≠ .failsafe then
          { c with bstate := .antiCycleCooldown }
        else c

/-- `_cancel_retry`. -/
def Coordinator.cancelRetry (c : Coordinator) : Coordinator :=
  { c with retryScheduled := false }

/-- `_schedule_retry(delay)`: a no-op when `delay ≤ 0` or a retry timer
is already pending (the `replace` flag is ignored by the source). -/
def Coordinator.scheduleRetry (c : Coordinator) (delay : ℚ) : Coordinator :=
  if delay ≤ 0 then c
  else if c.retryScheduled then c
  else { c with retryScheduled := true }

/-- `_failsafe_delay(now)`. -/
def Coordinator.failsafeDelay (c : Coordinator) (now : ℚ) : ℚ :=
  let breakerDelay := c.breaker.nextAttemptIn now
  let backoff :=
    min (FAILSAFE_RETRY_SECONDS * 2 ^ c.retryAttempts) RETRY_MAX_SECONDS
  if 0 < breakerDelay then max breakerDelay backoff else backoff

/-- `_turn_boiler_on`: (success, coordinator, driver-invoked). -/
def Coordinator.turnBoilerOn (c : Coordinator) (e : Env) :
    Bool × Coordinator × Bool :=
  let a := c.breaker.canAttempt e.now
  if a.1 = false then (false, { c with breaker := a.2 }, false)
  else if e.onSuccess then
    (true, { c with breaker := a.2.recordSuccess, retryAttempts := 0 }, true)
  else
    (false, { c with breaker := a.2.recordFailure e.now }, true)

/-- `_turn_boiler_off`: ((success, wasOn), coordinator, driver-invoked). -/
def Coordinator.turnBoilerOff (c : Coordinator) (e : Env) :
    (Bool × Bool) × Coordinator × Bool :=
  let a := c.breaker.canAttempt e.now
  if a.1 = false then ((false, false), { c with breaker := a.2 }, false)
  else if e.offSuccess then
    ((true, e.offWasOn),
      { c with breaker := a.2.recordSuccess, retryAttempts := 0 }, true)
  else
    ((false, e.offWasOn), { c with breaker := a.2.recordFailure e.now }, true)

/-- `_ensure_boiler_on(now)`: the second component records whether the
actuator driver was invoked. -/
def Coordinator.ensureBoilerOn (c : Coordinator) (now : ℚ) (e : Env) :
    Coordinator × Bool :=
  let remaining := c.cooldownRemaining now
  let breakerDelay := c.breaker.nextAttemptIn now
  let delay := max remaining breakerDelay
  if 0 < delay then
    let c :=
      if 0 < breakerDelay then { c with bstate := .failsafe }
      else if c.bstate ≠ .failsafe then { c with bstate := .antiCycleCooldown }
      else c
    (c.scheduleRetry delay, false)
  else
    let c :=
      if c.bstate = .antiCycleCooldown then
        { c with cooldownUntil := none, bstate := .idle }
      else c
    let r := c.turnBoilerOn e
    if r.1 then
      ({ r.2.1.cancelRetry with bstate := .firing }, r.2.2)
    else
      let c :=
        { r.2.1 with retryAttempts := r.2.1.retryAttempts + 1,
                     bstate := .failsafe }
      (c.scheduleRetry (c.failsafeDelay now), r.2.2)

/-- `_ensure_boiler_off(force)`. -/
def Coordinator.ensureBoilerOff (c : Coordinator) (force : Bool) (e : Env) :
    Coordinator × Bool :=
  let r := c.turnBoilerOff e
  let success := r.1.1
  let wasOn := r.1.2
  let c' := r.2.1
  let invoked := r.2.2
  if success = false then
    let c'' :=
      { c' with retryAttempts := c'.retryAttempts + 1, bstate := .failsafe }
    (c''.scheduleRetry (c''.failsafeDelay e.now), invoked)
  else
    let c'' := c'.cancelRetry
    if wasOn || force || decide (c''.bstate = .firing) then
      (c''.enterCooldown e.now, invoked)
    else if c''.bstate = .failsafe then
      if 0 < c''.cooldownRemaining e.now then
        ({ c'' with bstate := .antiCycleCooldown }, invoked)
      else
        ({ c'' with cooldownUntil := none, bstate := .idle }, invoked)
    else (c''.updateCooldownState e.now, invoked)

/-- `async_force_off`. -/
def Coordinator.forceOff (c : Coordinator) (e : Env) : Coordinator :=
  (c.ensureBoilerOff true e).1

inductive Decision where
  | masterForcedOff
  | attemptOn
  | attemptOff
deriving DecidableEq, Repr

structure RecalcInfo where
  decision : Decision
  driverInvoked : Bool
deriving DecidableEq, Repr

/-- `_recalculate`: flush any pending demand (cancelling the debounce
timer), read the master switch, update cooldown bookkeeping, then
dispatch on the OR of the demand map. -/
def Coordinator.recalculate (c : Coordinator) (e : Env) :
    Coordinator × RecalcInfo :=
  let c :=
    if c.pendingDemand.isEmpty then c
    else
      let c := { c with debounceScheduled := false }
      (c.applyPendingDemandUpdates).2
  if e.master = .off then
    let r := c.ensureBoilerOff true e
    (r.1, { decision := .masterForcedOff, driverInvoked := r.2 })
  else
    let c := c.updateCooldownState e.now
    if c.demand.any (fun p => p.2) then
      let r := c.ensureBoilerOn e.now e
      (r.1, { decision := .attemptOn, driverInvoked := r.2 })
    else
      let r := c.ensureBoilerOff false e
      (r.1, { decision := .attemptOff, driverInvoked := r.2 })

/-- `async_update_demand(zone_id, demand, immediate)`: queues the update
into the pending buffer; `immediate` cancels the debounce timer, merges
and — only when the merge changed the demand map — recalculates
synchronously; otherwise the debounce timer is (left) armed.  The second
component reports the synchronous recalculation's outcome, if any. -/
def Coordinator.updateDemand (c : Coordinator) (zoneId : String)
    (demand : Bool) (immediate : Bool) (e : Env) :
    Coordinator × Option RecalcInfo :=
  let c := { c with pendingDemand := alistSet c.pendingDemand zoneId demand }
  if immediate then
    let c := { c with debounceScheduled := false }
    let r := c.applyPendingDemandUpdates
    if r.1 then
      let rr := r.2.recalculate e
      (rr.1, some rr.2)
    else (r.2, none)
  else
    ({ c with debounceScheduled := true }, none)

/-- A sequence of `_recalculate` rounds, with the trace of outcomes. -/
def runRecalcs (c : Coordinator) : List Env → List (Coordinator × RecalcInfo)
  | [] => []
  | e :: rest =>
      let r := c.recalculate e
      r :: runRecalcs r.1 rest

end Vesta

namespace Vesta

/-! ### Association-list lemmas -/

/-- Keys of an association list are pairwise distinct (the invariant of
a Python `dict`). -/
def NodupKeys {α : Type} (m : List (String × α)) : Prop :=
  (m.map Prod.fst).Nodup

/-- The last value written for a key by a sequence of assignments. -/
def lastWrite {α : Type} : List (String × α) → String → Option α
  | [], _ => none
  | (z', d) :: rest, z =>
      match lastWrite rest z with
      | some b => some b
      | none => if z' = z then some d else none

theorem alistGet_alistSet {α : Type} (m : List (String × α)) (k z : String)
    (v : α) :
    alistGet? (alistSet m k v) z = if k = z then some v else alistGet? m z := by
  induction m with
  | nil => simp [alistSet, alistGet?]
  | cons p rest ih =>
      obtain ⟨k', v'⟩ := p
      by_cases hk : k' = k
      · subst hk
        by_cases hz : k' = z <;> simp [alistSet, alistGet?, hz]
      · by_cases hz : k' = z
        · have hkz : ¬ (k = z) := fun h => hk (hz.trans h.symm)
          have hzk : ¬ (z = k) := fun h => hkz h.symm
          simp [alistSet, alistGet?, hk, hz, hkz, hzk]
        · simp [alistSet, alistGet?, hk, hz, ih]

theorem mem_keys_alistSet {α : Type} (m : List (String × α)) (k z : String)
    (v : α) :
    z ∈ (alistSet m k v).map Prod.fst ↔ z = k ∨ z ∈ m.map Prod.fst := by
  induction m with
  | nil => simp [alistSet]
  | cons p rest ih =>
      obtain ⟨k', v'⟩ := p
      by_cases hk : k' = k
      · subst hk
        simp [alistSet]
        try tauto
      · simp [alistSet, hk, ih]
        try tauto

theorem nodupKeys_alistSet {α : Type} (m : List (String × α)) (k : String)
    (v : α) (h : NodupKeys m) : NodupKeys (alistSet m k v) := by
  induction m with
  | nil => simp [NodupKeys, alistSet]
  | cons p rest ih =>
      obtain ⟨k', v'⟩ := p
      have htail : NodupKeys rest := (List.nodup_cons.mp h).2
      have hhead : k' ∉ rest.map Prod.fst := (List.nodup_cons.mp h).1
      by_cases hk : k' = k
      · subst hk
        simpa [NodupKeys, alistSet] using h
      · have := ih htail
        simp only [NodupKeys, alistSet, if_neg hk, List.map_cons,
          List.nodup_cons]
        refine ⟨?_, this⟩
        rw [mem_keys_alistSet]
        push_neg
        exact ⟨hk, hhead⟩

theorem alistGet_eq_none_of_not_mem {α : Type} {m : List (String × α)}
    {z : String} (h : z ∉ m.map Prod.fst) : alistGet? m z = none := by
  induction m with
  | nil => simp [alistGet?]
  | cons p rest ih =>
      obtain ⟨k', v'⟩ := p
      simp only [List.map_cons, List.mem_cons] at h
      push_neg at h
      have hz : ¬ (k' = z) := fun hh => h.1 hh.symm
      simp [alistGet?, hz, ih h.2]

theorem mem_of_alistGet {α : Type} {m : List (String × α)} {z : String}
    {b : α} (h : alistGet? m z = some b) : (z, b) ∈ m := by
  induction m with
  | nil => simp [alistGet?] at h
  | cons p rest ih =>
      obtain ⟨k', v'⟩ := p
      by_cases hz : k' = z
      · subst hz
        simp [alistGet?] at h
        simp [h]
      · simp [alistGet?, hz] at h
        simp [ih h]

theorem alistGet_of_mem_nodup {α : Type} {m : List (String × α)} {z : String}
    {b : α} (hn : NodupKeys m) (h : (z, b) ∈ m) : alistGet? m z = some b := by
  induction m with
  | nil => simp at h
  | cons p rest ih =>
      obtain ⟨k', v'⟩ := p
      have hhead : k' ∉ rest.map Prod.fst := (List.nodup_cons.mp hn).1
      have htail : NodupKeys rest := (List.nodup_cons.mp hn).2
      rcases List.mem_cons.mp h with hh | hh
      · obtain ⟨h1, h2⟩ := Prod.mk.injEq .. ▸ hh.symm
        simp [alistGet?, h1, h2]
      · have hz : k' ≠ z := by
          intro hk
          subst hk
          exact hhead (List.mem_map.mpr ⟨(k', b), hh, rfl⟩)
        simp [alistGet?, hz, ih htail hh]

theorem lastWrite_eq_alistGet {α : Type} {m : List (String × α)}
    (hn : NodupKeys m) (z : String) : lastWrite m z = alistGet? m z := by
  induction m with
  | nil => rfl
  | cons p rest ih =>
      obtain ⟨k', v'⟩ := p
      have hhead : k' ∉ rest.map Prod.fst := (List.nodup_cons.mp hn).1
      have htail : NodupKeys rest := (List.nodup_cons.mp hn).2
      by_cases hz : k' = z
      · subst hz
        have : alistGet? rest k' = none := alistGet_eq_none_of_not_mem hhead
        rw [← ih htail] at this
        simp [lastWrite, alistGet?, this]
      · simp only [lastWrite, alistGet?, if_neg hz, ih htail]
        cases alistGet? rest z <;> simp [hz]

theorem alistGet_foldSet {α : Type} (us : List (String × α)) :
    ∀ (m : List (String × α)) (z : String),
      alistGet? (us.foldl (fun m p => alistSet m p.1 p.2) m) z =
        match lastWrite us z with
        | some b => some b
        | none => alistGet? m z := by
  induction us with
  | nil => intro m z; rfl
  | cons p rest ih =>
      intro m z
      obtain ⟨z', d⟩ := p
      simp only [List.foldl_cons]
      rw [ih]
      rcases hr : lastWrite rest z with _ | b
      · simp only [lastWrite, hr, alistGet_alistSet]
        by_cases hz : z' = z <;> simp [hz]
      · simp [lastWrite, hr]

theorem nodupKeys_foldSet {α : Type} (us : List (String × α)) :
    ∀ (m : List (String × α)), NodupKeys m →
      NodupKeys (us.foldl (fun m p => alistSet m p.1 p.2) m) := by
  induction us with
  | nil => intro m h; exact h
  | cons p rest ih =>
      intro m h
      exact ih _ (nodupKeys_alistSet m p.1 p.2 h)

theorem any_iff_exists_get {m : List (String × Bool)} (hn : NodupKeys m) :
    m.any (fun p => p.2) = true ↔ ∃ z, alistGet? m z = some true := by
  constructor
  · intro h
    obtain ⟨p, hp, hp2⟩ := List.any_eq_true.mp h
    refine ⟨p.1, ?_⟩
    have : (p.1, true) ∈ m := by
      have : p = (p.1, p.2) := rfl
      rw [this] at hp
      simpa [show p.2 = true from by simpa using hp2] using hp
    exact alistGet_of_mem_nodup hn this
  · rintro ⟨z, hz⟩
    exact List.any_eq_true.mpr ⟨(z, true), mem_of_alistGet hz, rfl⟩

end Vesta

namespace Vesta

/-- A sequence of non-immediate `async_update_demand` calls. -/
def Coordinator.queueDemands (c : Coordinator) (us : List (String × Bool))
    (e : Env) : Coordinator :=
  us.foldl (fun c p => (c.updateDemand p.1 p.2 false e).1) c

theorem updateDemand_not_immediate (c : Coordinator) (z : String) (d : Bool)
    (e : Env) :
    (c.updateDemand z d false e).1 =
      { c with pendingDemand := alistSet c.pendingDemand z d,
               debounceScheduled := true } := by
  rfl

theorem queueDemands_pendingDemand (us : List (String × Bool)) :
    ∀ (c : Coordinator) (e : Env),
      (c.queueDemands us e).pendingDemand =
        us.foldl (fun m p => alistSet m p.1 p.2) c.pendingDemand := by
  induction us with
  | nil => intro c e; rfl
  | cons p rest ih =>
      intro c e
      simp only [Coordinator.queueDemands, List.foldl_cons] at *
      rw [show ((c.updateDemand p.1 p.2 false e).1) =
        { c with pendingDemand := alistSet c.pendingDemand p.1 p.2,
                 debounceScheduled := true } from rfl]
      exact ih _ e

theorem queueDemands_demand (us : List (String × Bool)) :
    ∀ (c : Coordinator) (e : Env),
      (c.queueDemands us e).demand = c.demand := by
  induction us with
  | nil => intro c e; rfl
  | cons p rest ih =>
      intro c e
      simp only [Coordinator.queueDemands, List.foldl_cons] at *
      rw [show ((c.updateDemand p.1 p.2 false e).1) =
        { c with pendingDemand := alistSet c.pendingDemand p.1 p.2,
                 debounceScheduled := true } from rfl]
      exact ih _ e

theorem applyPendingLoop_map :
    ∀ (ps m : List (String × Bool)) (b : Bool),
      (applyPendingLoop ps m b).2 =
        ps.foldl (fun m p => alistSet m p.1 p.2) m := by
  intro ps
  induction ps with
  | nil => intro m b; rfl
  | cons p rest ih =>
      intro m b
      obtain ⟨z, d⟩ := p
      simp only [applyPendingLoop, List.foldl_cons, ih]

theorem updateCooldownState_demand (c : Coordinator) (now : ℚ) :
    (c.updateCooldownState now).demand = c.demand := by
  unfold Coordinator.updateCooldownState
  cases c.cooldownUntil <;> dsimp only <;> split_ifs <;> rfl

theorem updateCooldownState_pendingDemand (c : Coordinator) (now : ℚ) :
    (c.updateCooldownState now).pendingDemand = c.pendingDemand := by
  unfold Coordinator.updateCooldownState
  cases c.cooldownUntil <;> dsimp only <;> split_ifs <;> rfl

/-- `_recalculate` under a non-off master switch decides on exactly the
OR over the demand map obtained by flushing the pending buffer. -/
theorem recalculate_decision (c : Coordinator) (e : Env)
    (h : e.master ≠ .off) :
    (c.recalculate e).2.decision =
      (if (if c.pendingDemand.isEmpty then c.demand
           else (applyPendingLoop c.pendingDemand c.demand false).2).any
            (fun p => p.2)
       then Decision.attemptOn else Decision.attemptOff) := by
  unfold Coordinator.recalculate
  by_cases hp : c.pendingDemand.isEmpty
  · simp only [hp, if_true, if_neg h]
    rw [updateCooldownState_demand]
    split_ifs <;> rfl
  · have hflush :
        (({ c with debounceScheduled := false } :
            Coordinator).applyPendingDemandUpdates).2 =
          { c with debounceScheduled := false
                   demand := (applyPendingLoop c.pendingDemand c.demand false).2
                   pendingDemand := [] } := by
      simp [Coordinator.applyPendingDemandUpdates, hp]
    simp only [hp, if_false, if_neg h, hflush]
    rw [updateCooldownState_demand]
    try dsimp only
    split_ifs <;> rfl

/-- Pointwise, double-folding a demand sequence (pending buffer, then
merge into an empty demand map) reads back the last write per zone. -/
theorem get_merged_eq_lastWrite (us : List (String × Bool)) (z : String) :
    alistGet?
      ((us.foldl (fun m p => alistSet m p.1 p.2)
          ([] : List (String × Bool))).foldl
        (fun m p => alistSet m p.1 p.2) []) z = lastWrite us z := by
  have h1 : alistGet? (us.foldl (fun m p => alistSet m p.1 p.2)
      ([] : List (String × Bool))) z = lastWrite us z := by
    rw [alistGet_foldSet]
    cases lastWrite us z <;> simp [alistGet?]
  have hnp : NodupKeys (us.foldl (fun m p => alistSet m p.1 p.2)
      ([] : List (String × Bool))) :=
    nodupKeys_foldSet us [] (by simp [NodupKeys])
  rw [alistGet_foldSet, lastWrite_eq_alistGet hnp, h1]
  cases lastWrite us z <;> simp [alistGet?]

/-- C1: for every sequence of `updateDemand` calls followed by the
debounce flush inside `recalculate`, the supervisor attempts boiler
turn-on exactly when the latest recorded demand of at least one zone is
true, and attempts turn-off otherwise — given the master switch is not
explicitly off. -/
theorem supervisor_or_of_latest_demand (mc : ℚ) (us : List (String × Bool))
    (e e' : Env) (h : e'.master ≠ .off) :
    (((((mkCoordinator mc).queueDemands us e).recalculate e').2.decision =
        Decision.attemptOn) ↔ ∃ z, lastWrite us z = some true) ∧
    (((((mkCoordinator mc).queueDemands us e).recalculate e').2.decision =
        Decision.attemptOff) ↔ ¬ ∃ z, lastWrite us z = some true) := by
  have hpend := queueDemands_pendingDemand us (mkCoordinator mc) e
  have hdem := queueDemands_demand us (mkCoordinator mc) e
  have hdec := recalculate_decision ((mkCoordinator mc).queueDemands us e) e' h
  rw [hpend, hdem] at hdec
  rw [show (mkCoordinator mc).pendingDemand = [] from rfl,
    show (mkCoordinator mc).demand = [] from rfl] at hdec
  by_cases hp : (us.foldl (fun m p => alistSet m p.1 p.2)
      ([] : List (String × Bool))).isEmpty
  · have hempty : (us.foldl (fun m p => alistSet m p.1 p.2)
        ([] : List (String × Bool))) = [] := by
      rwa [List.isEmpty_iff] at hp
    have hnone : ∀ z, lastWrite us z = none := by
      intro z
      have := alistGet_foldSet us ([] : List (String × Bool)) z
      rw [hempty] at this
      cases hl : lastWrite us z
      · rfl
      · rw [hl] at this
        simp [alistGet?] at this
    rw [hdec]
    simp only [hp, if_true]
    constructor
    · constructor
      · intro hfalse
        simp at hfalse
      · rintro ⟨z, hz⟩
        rw [hnone z] at hz
        exact absurd hz (by simp)
    · constructor
      · rintro - ⟨z, hz⟩
        rw [hnone z] at hz
        exact absurd hz (by simp)
      · intro hne
        simp
  · rw [hdec]
    simp only [hp, if_false]
    have hmap := applyPendingLoop_map (us.foldl (fun m p => alistSet m p.1 p.2)
      ([] : List (String × Bool))) [] false
    rw [hmap]
    simp only [Bool.false_eq_true, if_false]
    have hnd : NodupKeys ((us.foldl (fun m p => alistSet m p.1 p.2)
        ([] : List (String × Bool))).foldl
          (fun m p => alistSet m p.1 p.2) []) :=
      nodupKeys_foldSet _ [] (by simp [NodupKeys])
    have hiff := any_iff_exists_get hnd
    have hpt : (∃ z, alistGet? ((us.foldl (fun m p => alistSet m p.1 p.2)
        ([] : List (String × Bool))).foldl
          (fun m p => alistSet m p.1 p.2) []) z = some true) ↔
        ∃ z, lastWrite us z = some true := by
      constructor
      · rintro ⟨z, hz⟩
        exact ⟨z, (get_merged_eq_lastWrite us z) ▸ hz⟩
      · rintro ⟨z, hz⟩
        exact ⟨z, (get_merged_eq_lastWrite us z).symm ▸ hz⟩
    by_cases ha : ((us.foldl (fun m p => alistSet m p.1 p.2)
        ([] : List (String × Bool))).foldl
          (fun m p => alistSet m p.1 p.2) []).any (fun p => p.2) = true
    · rw [if_pos ha]
      have hex := hpt.mp (hiff.mp ha)
      constructor
      · exact ⟨fun _ => hex, fun _ => rfl⟩
      · exact ⟨fun hfalse => absurd hfalse (by decide),
          fun hn => absurd hex hn⟩
    · rw [if_neg ha]
      have hnex : ¬ ∃ z, lastWrite us z = some true := fun hex =>
        ha (hiff.mpr (hpt.mpr hex))
      constructor
      · exact ⟨fun hfalse => absurd hfalse (by decide),
          fun hex => absurd hex hnex⟩
      · exact ⟨fun _ => hnex, fun _ => rfl⟩

/-- A benign environment: master switch on, time zero, driver calls
succeeding. -/
def envOn : Env :=
  { master := .on, now := 0, onSuccess := true, offSuccess := true,
    offWasOn := false }

/-- Witness for `supervisor_or_of_latest_demand`: the sequence
`[("a", true), ("a", false), ("b", true)]` has latest demands
`a ↦ false`, `b ↦ true`, so the supervisor attempts turn-on. -/
theorem supervisor_or_of_latest_demand_witness :
    (((mkCoordinator 10).queueDemands
        [("a", true), ("a", false), ("b", true)] envOn).recalculate
      envOn).2.decision = Decision.attemptOn :=
  (supervisor_or_of_latest_demand 10 [("a", true), ("a", false), ("b", true)]
    envOn envOn (by simp [envOn])).1.mpr ⟨"b", by simp [lastWrite]⟩

end Vesta

namespace Vesta

/-! ### Anti-cycle cooldown lemmas -/

theorem scheduleRetry_pos (c : Coordinator) (d : ℚ) (h : 0 < d) :
    c.scheduleRetry d = { c with retryScheduled := true } := by
  obtain ⟨mc, dm, pd, bs, cu, br, ds, rs, ra⟩ := c
  cases rs <;> simp [Coordinator.scheduleRetry, not_le.mpr h]

theorem updateCooldownState_active (c : Coordinator) (now T : ℚ)
    (hcd : c.cooldownUntil = some T) (hnow : now < T) :
    c.updateCooldownState now =
      if c.bstate ≠ .firing ∧ c.bstate ≠ .failsafe
      then { c with bstate := .antiCycleCooldown } else c := by
  unfold Coordinator.updateCooldownState
  rw [hcd]
  simp [not_le.mpr hnow]

/-- A `_recalculate` round with demand, a non-off master switch and an
unexpired cooldown deadline: the driver is not invoked, the retry timer
is armed, the deadline survives, and the state becomes (or stays)
AntiCycleCooldown — Failsafe exactly when the breaker is the limiting
factor or the round started in Failsafe. -/
theorem recalc_suppressed (c : Coordinator) (e : Env) (T : ℚ)
    (hm : e.master ≠ .off) (hcd : c.cooldownUntil = some T)
    (hnow : e.now < T) (hp : c.pendingDemand = [])
    (hd : c.demand.any (fun p => p.2) = true) :
    (c.recalculate e).2.driverInvoked = false ∧
    (c.recalculate e).1.bstate ≠ .firing ∧
    ((c.recalculate e).1.bstate = .antiCycleCooldown ∨
      (c.recalculate e).1.bstate = .failsafe) ∧
    ((c.recalculate e).1.bstate = .failsafe ↔
      (0 < c.breaker.nextAttemptIn e.now ∨ c.bstate = .failsafe)) ∧
    (c.recalculate e).1.retryScheduled = true ∧
    (c.recalculate e).1.cooldownUntil = some T ∧
    (c.recalculate e).1.pendingDemand = [] ∧
    (c.recalculate e).1.demand = c.demand := by
  obtain ⟨mc, dm, pd, bs, cu, br, ds, rs, ra⟩ := c
  simp only at hcd hp hd ⊢
  subst hcd hp
  have hrem : (0 : ℚ) < max 0 (T - e.now) :=
    lt_max_of_lt_right (by linarith)
  have hdelay : ∀ bd : ℚ, 0 < max (max 0 (T - e.now)) bd :=
    fun bd => lt_of_lt_of_le hrem (le_max_left _ _)
  unfold Coordinator.recalculate
  simp only [List.isEmpty_nil, if_true, if_neg hm]
  by_cases hbd : 0 < br.nextAttemptIn e.now
  · cases bs <;>
      simp [Coordinator.updateCooldownState, not_le.mpr hnow, hd,
        Coordinator.ensureBoilerOn, Coordinator.cooldownRemaining,
        hdelay _, hbd, scheduleRetry_pos _ _ (hdelay _)]
  · cases bs <;>
      simp [Coordinator.updateCooldownState, not_le.mpr hnow, hd,
        Coordinator.ensureBoilerOn, Coordinator.cooldownRemaining,
        hdelay _, hbd, scheduleRetry_pos _ _ (hdelay _)]

end Vesta

namespace Vesta

/-- Induction over a run of demand-true recalculation rounds inside an
unexpired cooldown window. -/
theorem runRecalcs_suppressed (T : ℚ) :
    ∀ (envs : List Env) (s : Coordinator),
      s.cooldownUntil = some T → s.pendingDemand = [] →
      s.demand.any (fun p => p.2) = true →
      (∀ e ∈ envs, e.master ≠ .off ∧ e.now < T) →
      ∀ p ∈ runRecalcs s envs,
        p.2.driverInvoked = false ∧ p.1.bstate ≠ .firing ∧
        (p.1.bstate = .antiCycleCooldown ∨ p.1.bstate = .failsafe) ∧
        p.1.retryScheduled = true ∧ p.1.cooldownUntil = some T := by
  intro envs
  induction envs with
  | nil => intro s _ _ _ _ p hmem; simp [runRecalcs] at hmem
  | cons e rest ih =>
      intro s hcd hp hd hes p hmem
      obtain ⟨hm, hnow⟩ := hes e (List.mem_cons_self e rest)
      have hstep := recalc_suppressed s e T hm hcd hnow hp hd
      rw [runRecalcs] at hmem
      rcases List.mem_cons.mp hmem with hh | hh
      · subst hh
        exact ⟨hstep.1, hstep.2.1, hstep.2.2.1, hstep.2.2.2.2.1,
          hstep.2.2.2.2.2.1⟩
      · exact ih (s.recalculate e).1 hstep.2.2.2.2.2.1
          hstep.2.2.2.2.2.2.1
          (hstep.2.2.2.2.2.2.2 ▸ hd)
          (fun e' he' => hes e' (List.mem_cons_of_mem e he')) p hh

/-- `_ensure_boiler_off` on a successful driver call with the breaker
permitting, from a Firing state (or forced), with a positive minimum
cycle: enters anti-cycle cooldown until `now + minCycle` minutes. -/
theorem ensureBoilerOff_firing_success (c : Coordinator) (force : Bool)
    (e : Env) (hb : (c.breaker.canAttempt e.now).1 = true)
    (hoff : e.offSuccess = true) (hfir : c.bstate = .firing)
    (hmc : 0 < c.minCycle) :
    (c.ensureBoilerOff force e).1.cooldownUntil =
        some (e.now + c.minCycle * 60) ∧
    (c.ensureBoilerOff force e).1.bstate = .antiCycleCooldown ∧
    (c.ensureBoilerOff force e).1.pendingDemand = c.pendingDemand ∧
    (c.ensureBoilerOff force e).1.demand = c.demand := by
  obtain ⟨mc, dm, pd, bs, cu, br, ds, rs, ra⟩ := c
  simp only at hfir hmc hb ⊢
  subst hfir
  simp [Coordinator.ensureBoilerOff, Coordinator.turnBoilerOff, hb, hoff,
    Coordinator.cancelRetry, Coordinator.enterCooldown, not_le.mpr hmc]

/-- C2: after a Firing → off transition (which, for a positive
`minCycleMinutes`, sets the cooldown deadline to `now + minCycleMinutes`),
every subsequent recalculation round with demand true and a time before
the deadline neither invokes the driver nor reaches Firing; each such
suppressed attempt leaves the state in AntiCycleCooldown or Failsafe
(Failsafe, from the fresh cooldown state, exactly when the circuit
breaker is the limiting factor) and keeps a retry timer scheduled. -/
theorem anti_cycle_blocks_turn_on (c : Coordinator) (e₀ : Env)
    (envs : List Env) (force : Bool)
    (hfir : c.bstate = .firing) (hmc : 0 < c.minCycle)
    (hb : (c.breaker.canAttempt e₀.now).1 = true)
    (hoff : e₀.offSuccess = true)
    (hp : c.pendingDemand = [])
    (hd : c.demand.any (fun p => p.2) = true)
    (hes : ∀ e ∈ envs, e.master ≠ .off ∧ e.now < e₀.now + c.minCycle * 60) :
    (c.ensureBoilerOff force e₀).1.cooldownUntil =
        some (e₀.now + c.minCycle * 60) ∧
    (c.ensureBoilerOff force e₀).1.bstate = .antiCycleCooldown ∧
    (∀ p ∈ runRecalcs (c.ensureBoilerOff force e₀).1 envs,
      p.2.driverInvoked = false ∧
      p.1.bstate ≠ .firing ∧
      (p.1.bstate = .antiCycleCooldown ∨ p.1.bstate = .failsafe) ∧
      p.1.retryScheduled = true ∧
      p.1.cooldownUntil = some (e₀.now + c.minCycle * 60)) ∧
    (∀ e : Env, e.master ≠ .off → e.now < e₀.now + c.minCycle * 60 →
      (((c.ensureBoilerOff force e₀).1.recalculate e).1.bstate = .failsafe ↔
        0 < (c.ensureBoilerOff force e₀).1.breaker.nextAttemptIn e.now)) := by
  obtain ⟨hcd, hbs, hpd, hdm⟩ :=
    ensureBoilerOff_firing_success c force e₀ hb hoff hfir hmc
  refine ⟨hcd, hbs, ?_, ?_⟩
  · exact runRecalcs_suppressed (e₀.now + c.minCycle * 60) envs _
      hcd (hpd.trans hp) (hdm ▸ hd) hes
  · intro e hm hnow
    have hstep := recalc_suppressed (c.ensureBoilerOff force e₀).1 e
      (e₀.now + c.minCycle * 60) hm hcd hnow (hpd.trans hp) (hdm ▸ hd)
    rw [hstep.2.2.2.1, hbs]
    simp

end Vesta

namespace Vesta

/-- A firing coordinator with one demanding zone. -/
def cFiring : Coordinator :=
  { mkCoordinator 10 with bstate := .firing, demand := [("z", true)] }

/-- Witness for `anti_cycle_blocks_turn_on`: one demand-true round right
after the Firing → off transition does not invoke the driver. -/
theorem anti_cycle_blocks_turn_on_witness :
    ((cFiring.ensureBoilerOff true envOn).1.recalculate
      envOn).2.driverInvoked = false :=
  ((anti_cycle_blocks_turn_on cFiring envOn [envOn] true rfl
      (by norm_num [cFiring, mkCoordinator])
      rfl rfl rfl rfl
      (by
        intro e he
        rw [List.mem_singleton] at he
        subst he
        exact ⟨by simp [envOn], by norm_num [envOn, cFiring, mkCoordinator]⟩)).2.2.1
    ((cFiring.ensureBoilerOff true envOn).1.recalculate envOn)
    (by simp [runRecalcs])).1

end Vesta

namespace Vesta

/-- A coordinator whose circuit breaker is open until t = 1000. -/
def cBreakerOpen : Coordinator :=
  { mkCoordinator 10 with
    breaker := { mkCircuitBreaker 3 300 with
                 state := .opened, openedUntil := some 1000 } }

/-- C4 counterexample: a `recalculate` with no zone demanding heat while
the circuit breaker's open window is active does NOT invoke the driver's
turn-off — the attempt is suppressed by the breaker and lands in
Failsafe with a retry scheduled. -/
theorem turn_off_suppressed_by_open_breaker :
    (cBreakerOpen.recalculate envOn).2.decision = Decision.attemptOff ∧
    (cBreakerOpen.recalculate envOn).2.driverInvoked = false ∧
    (cBreakerOpen.recalculate envOn).1.bstate = .failsafe ∧
    (cBreakerOpen.recalculate envOn).1.retryScheduled = true := by
  have hca : (cBreakerOpen.breaker.canAttempt envOn.now).1 = false := by
    norm_num [cBreakerOpen, mkCircuitBreaker, envOn,
      CircuitBreaker.canAttempt, CircuitBreaker.canAttemptHalfOpen]
  refine ?_
  norm_num [Coordinator.recalculate, cBreakerOpen, mkCoordinator, envOn,
    Coordinator.updateCooldownState, Coordinator.ensureBoilerOff,
    Coordinator.turnBoilerOff, CircuitBreaker.canAttempt,
    CircuitBreaker.canAttemptHalfOpen, mkCircuitBreaker,
    Coordinator.scheduleRetry, Coordinator.failsafeDelay,
    CircuitBreaker.nextAttemptIn, FAILSAFE_RETRY_SECONDS,
    RETRY_MAX_SECONDS]
  simp

/-- `_ensure_boiler_off` always reaches `_turn_boiler_off`: the driver is
invoked exactly when the circuit breaker permits the attempt. -/
theorem ensureBoilerOff_invoked (c : Coordinator) (force : Bool) (e : Env) :
    (c.ensureBoilerOff force e).2 = (c.breaker.canAttempt e.now).1 := by
  obtain ⟨mc, dm, pd, bs, cu, br, ds, rs, ra⟩ := c
  unfold Coordinator.ensureBoilerOff Coordinator.turnBoilerOff
  dsimp only
  cases hca : (br.canAttempt e.now).1 <;>
    simp [hca] <;> split_ifs <;> rfl

/-- C4 amended: the turn-off attempt is made in every state — whether
the driver is invoked depends only on the circuit breaker, never on the
anti-cycle cooldown, the pending-retry flag, the retry counter or the
debounce timer; when the breaker's open window is active the driver
call is skipped (and the attempt is treated as a failure). -/
theorem turn_off_not_delay_rate_limited (c : Coordinator) (force : Bool)
    (e : Env) (cd : Option ℚ) (rs ds : Bool) (n : ℕ) :
    (c.ensureBoilerOff force e).2 = (c.breaker.canAttempt e.now).1 ∧
    (({ c with
        cooldownUntil := cd
        retryScheduled := rs
        retryAttempts := n
        debounceScheduled := ds } :
          Coordinator).ensureBoilerOff force e).2 =
      (c.ensureBoilerOff force e).2 :=
  ⟨ensureBoilerOff_invoked c force e,
    (ensureBoilerOff_invoked _ force e).trans
      (ensureBoilerOff_invoked c force e).symm⟩

end Vesta

namespace Vesta

/-! ### Immediate demand updates (`async_update_demand(immediate=True)`) -/

theorem any_congr_mem {α : Type} (l : List α) (f g : α → Bool)
    (h : ∀ a ∈ l, f a = g a) : l.any f = l.any g := by
  induction l with
  | nil => rfl
  | cons x xs ih =>
      simp only [List.any_cons, h x (List.mem_cons_self x xs),
        ih (fun a ha => h a (List.mem_cons_of_mem x ha))]

theorem applyPendingLoop_changed (ps : List (String × Bool)) :
    ∀ (m : List (String × Bool)) (b : Bool), NodupKeys ps →
      (applyPendingLoop ps m b).1 =
        (b || ps.any (fun p => decide (alistGet? m p.1 ≠ some p.2))) := by
  induction ps with
  | nil => intro m b _; simp [applyPendingLoop]
  | cons p rest ih =>
      intro m b hn
      obtain ⟨z, d⟩ := p
      have hhead : z ∉ rest.map Prod.fst := (List.nodup_cons.mp hn).1
      have htail : NodupKeys rest := (List.nodup_cons.mp hn).2
      simp only [applyPendingLoop]
      rw [ih _ _ htail]
      have hcong : ∀ q ∈ rest,
          (decide (alistGet? (alistSet m z d) q.1 ≠ some q.2)) =
            (decide (alistGet? m q.1 ≠ some q.2)) := by
        intro q hq
        have hzq : z ≠ q.1 := fun h =>
          hhead (h ▸ List.mem_map.mpr ⟨q, hq, rfl⟩)
        rw [alistGet_alistSet, if_neg hzq]
      rw [any_congr_mem rest _ _ hcong]
      simp [List.any_cons, Bool.or_assoc]

/-- The `changed` flag of the merge is precisely a pointwise difference
between the merged and the previous demand map. -/
theorem changed_iff_pointwise (ps m : List (String × Bool))
    (hn : NodupKeys ps) :
    (applyPendingLoop ps m false).1 = true ↔
      ∃ k, alistGet? (ps.foldl (fun m p => alistSet m p.1 p.2) m) k ≠
        alistGet? m k := by
  rw [applyPendingLoop_changed ps m false hn]
  simp only [Bool.false_or, List.any_eq_true, decide_eq_true_eq]
  constructor
  · rintro ⟨p, hp, hne⟩
    refine ⟨p.1, ?_⟩
    rw [alistGet_foldSet]
    rw [lastWrite_eq_alistGet hn, alistGet_of_mem_nodup hn
      (show (p.1, p.2) ∈ ps from hp)]
    exact Ne.symm hne
  · rintro ⟨k, hk⟩
    rw [alistGet_foldSet] at hk
    rcases hl : lastWrite ps k with _ | b
    · rw [hl] at hk
      simp at hk
    · rw [hl] at hk
      rw [lastWrite_eq_alistGet hn] at hl
      exact ⟨(k, b), mem_of_alistGet hl, Ne.symm hk⟩

theorem alistSet_ne_nil {α : Type} (m : List (String × α)) (k : String)
    (v : α) : alistSet m k v ≠ [] := by
  cases m with
  | nil => simp [alistSet]
  | cons p rest =>
      obtain ⟨k', v'⟩ := p
      by_cases hk : k' = k <;> simp [alistSet, hk]

theorem scheduleRetry_proj (c : Coordinator) (d : ℚ) :
    (c.scheduleRetry d).demand = c.demand ∧
    (c.scheduleRetry d).pendingDemand = c.pendingDemand ∧
    (c.scheduleRetry d).debounceScheduled = c.debounceScheduled := by
  unfold Coordinator.scheduleRetry
  split_ifs <;> simp

theorem turnBoilerOn_proj (c : Coordinator) (e : Env) :
    (c.turnBoilerOn e).2.1.demand = c.demand ∧
    (c.turnBoilerOn e).2.1.pendingDemand = c.pendingDemand ∧
    (c.turnBoilerOn e).2.1.debounceScheduled = c.debounceScheduled := by
  simp only [Coordinator.turnBoilerOn]
  split_ifs <;> simp

theorem turnBoilerOff_proj (c : Coordinator) (e : Env) :
    (c.turnBoilerOff e).2.1.demand = c.demand ∧
    (c.turnBoilerOff e).2.1.pendingDemand = c.pendingDemand ∧
    (c.turnBoilerOff e).2.1.debounceScheduled = c.debounceScheduled := by
  simp only [Coordinator.turnBoilerOff]
  split_ifs <;> simp

theorem ensureBoilerOn_frame (c : Coordinator) (now : ℚ) (e : Env) :
    (c.ensureBoilerOn now e).1.demand = c.demand ∧
    (c.ensureBoilerOn now e).1.pendingDemand = c.pendingDemand ∧
    (c.ensureBoilerOn now e).1.debounceScheduled = c.debounceScheduled := by
  simp only [Coordinator.ensureBoilerOn]
  split_ifs <;>
    simp [Coordinator.cancelRetry, scheduleRetry_proj, (scheduleRetry_proj _ _).1,
      (scheduleRetry_proj _ _).2.1, (scheduleRetry_proj _ _).2.2,
      (turnBoilerOn_proj _ _).1, (turnBoilerOn_proj _ _).2.1,
      (turnBoilerOn_proj _ _).2.2]

theorem updateCooldownState_debounce (c : Coordinator) (now : ℚ) :
    (c.updateCooldownState now).debounceScheduled = c.debounceScheduled := by
  unfold Coordinator.updateCooldownState
  cases c.cooldownUntil <;> dsimp only <;> split_ifs <;> rfl

theorem enterCooldown_proj (c : Coordinator) (now : ℚ) :
    (c.enterCooldown now).demand = c.demand ∧
    (c.enterCooldown now).pendingDemand = c.pendingDemand ∧
    (c.enterCooldown now).debounceScheduled = c.debounceScheduled := by
  unfold Coordinator.enterCooldown
  split_ifs <;> simp

theorem ensureBoilerOff_frame (c : Coordinator) (force : Bool) (e : Env) :
    (c.ensureBoilerOff force e).1.demand = c.demand ∧
    (c.ensureBoilerOff force e).1.pendingDemand = c.pendingDemand ∧
    (c.ensureBoilerOff force e).1.debounceScheduled = c.debounceScheduled := by
  simp only [Coordinator.ensureBoilerOff]
  split_ifs <;>
    simp [Coordinator.cancelRetry,
      updateCooldownState_demand, updateCooldownState_pendingDemand,
      updateCooldownState_debounce,
      (scheduleRetry_proj _ _).1, (scheduleRetry_proj _ _).2.1,
      (scheduleRetry_proj _ _).2.2,
      (turnBoilerOff_proj _ _).1, (turnBoilerOff_proj _ _).2.1,
      (turnBoilerOff_proj _ _).2.2,
      (enterCooldown_proj _ _).1, (enterCooldown_proj _ _).2.1,
      (enterCooldown_proj _ _).2.2]


/-- `_recalculate` leaves the demand bookkeeping alone when the pending
buffer is empty. -/
theorem recalculate_frame_of_no_pending (c : Coordinator) (e : Env)
    (hp : c.pendingDemand = []) :
    (c.recalculate e).1.demand = c.demand ∧
    (c.recalculate e).1.pendingDemand = [] ∧
    (c.recalculate e).1.debounceScheduled = c.debounceScheduled := by
  have hpe : c.pendingDemand.isEmpty = true := by rw [hp]; rfl
  unfold Coordinator.recalculate
  simp only [hpe, if_true]
  by_cases hm : e.master = .off
  · simp only [if_pos hm]
    obtain ⟨h1, h2, h3⟩ := ensureBoilerOff_frame c true e
    exact ⟨h1, h2.trans hp, h3⟩
  · simp only [if_neg hm]
    by_cases ha : (c.updateCooldownState e.now).demand.any (fun p => p.2) = true
    · simp only [ha, if_true]
      obtain ⟨h1, h2, h3⟩ := ensureBoilerOn_frame (c.updateCooldownState e.now)
        e.now e
      exact ⟨h1.trans (updateCooldownState_demand c e.now),
        h2.trans ((updateCooldownState_pendingDemand c e.now).trans hp),
        h3.trans (updateCooldownState_debounce c e.now)⟩
    · simp only [ha, if_false]
      obtain ⟨h1, h2, h3⟩ := ensureBoilerOff_frame (c.updateCooldownState e.now)
        false e
      exact ⟨h1.trans (updateCooldownState_demand c e.now),
        h2.trans ((updateCooldownState_pendingDemand c e.now).trans hp),
        h3.trans (updateCooldownState_debounce c e.now)⟩

end Vesta

namespace Vesta

/-- A coordinator already holding demand `z ↦ true`. -/
def cOneZone : Coordinator :=
  { mkCoordinator 10 with demand := [("z", true)] }

/-- C5 counterexample: an `immediate` update that leaves the merged
demand map unchanged does NOT perform a synchronous recalculation —
`_apply_pending_demand_updates` reports no change and the recalculation
is skipped. -/
theorem immediate_unchanged_merge_skips_recalc :
    (cOneZone.updateDemand "z" true true envOn).2 = none := by
  simp [cOneZone, mkCoordinator, Coordinator.updateDemand,
    Coordinator.applyPendingDemandUpdates, applyPendingLoop, alistSet,
    alistGet?]

/-- C5 amended: an `immediate` update always cancels the debounce timer
and merges the pending buffer (last-write-wins) into the demand map, but
the synchronous recalculation before returning happens exactly when the
merge changed the demand map pointwise; an update that leaves the merged
map unchanged skips it. -/
theorem immediate_update_recalc_iff_changed (c : Coordinator) (z : String)
    (d : Bool) (e : Env) (hn : NodupKeys c.pendingDemand) :
    (c.updateDemand z d true e).1.pendingDemand = [] ∧
    (c.updateDemand z d true e).1.debounceScheduled = false ∧
    (c.updateDemand z d true e).1.demand =
      (alistSet c.pendingDemand z d).foldl
        (fun m p => alistSet m p.1 p.2) c.demand ∧
    ((c.updateDemand z d true e).2.isSome ↔
      ∃ k, alistGet?
          ((alistSet c.pendingDemand z d).foldl
            (fun m p => alistSet m p.1 p.2) c.demand) k ≠
        alistGet? c.demand k) := by
  have hnn : NodupKeys (alistSet c.pendingDemand z d) :=
    nodupKeys_alistSet _ _ _ hn
  have hni : ¬ ((alistSet c.pendingDemand z d).isEmpty = true) := by
    rw [List.isEmpty_iff]
    exact alistSet_ne_nil _ _ _
  have hiff := changed_iff_pointwise (alistSet c.pendingDemand z d)
    c.demand hnn
  have happ : ({ c with
      pendingDemand := alistSet c.pendingDemand z d
      debounceScheduled := false } : Coordinator).applyPendingDemandUpdates =
        ((applyPendingLoop (alistSet c.pendingDemand z d) c.demand false).1,
          { c with
            pendingDemand := []
            debounceScheduled := false
            demand :=
              (applyPendingLoop (alistSet c.pendingDemand z d)
                c.demand false).2 }) := by
    simp [Coordinator.applyPendingDemandUpdates, hni]
  have hmap := applyPendingLoop_map (alistSet c.pendingDemand z d)
    c.demand false
  by_cases hc : (applyPendingLoop (alistSet c.pendingDemand z d)
      c.demand false).1 = true
  · have hout : c.updateDemand z d true e =
        ((({ c with
            pendingDemand := []
            debounceScheduled := false
            demand :=
              (applyPendingLoop (alistSet c.pendingDemand z d)
                c.demand false).2 } : Coordinator).recalculate e).1,
          some ((({ c with
            pendingDemand := []
            debounceScheduled := false
            demand :=
              (applyPendingLoop (alistSet c.pendingDemand z d)
                c.demand false).2 } : Coordinator).recalculate e).2)) := by
      simp only [Coordinator.updateDemand, if_true, happ, hc]
    obtain ⟨hfd, hfp, hfb⟩ := recalculate_frame_of_no_pending
      ({ c with
        pendingDemand := []
        debounceScheduled := false
        demand :=
          (applyPendingLoop (alistSet c.pendingDemand z d)
            c.demand false).2 } : Coordinator) e rfl
    rw [hout]
    refine ⟨hfp, hfb, ?_, ?_⟩
    · rw [hfd]
      exact hmap
    · simp only [Option.isSome_some, true_iff]
      exact hiff.mp hc
  · have hout : c.updateDemand z d true e =
        ({ c with
          pendingDemand := []
          debounceScheduled := false
          demand :=
            (applyPendingLoop (alistSet c.pendingDemand z d)
              c.demand false).2 }, none) := by
      simp only [Coordinator.updateDemand, if_true, happ, hc]
      simp [hc]
    rw [hout]
    refine ⟨rfl, rfl, hmap, ?_⟩
    simp only [Option.isSome_none, Bool.false_eq_true, false_iff]
    intro hex
    exact hc (hiff.mpr hex)

/-- Witness for `immediate_update_recalc_iff_changed`: from an empty
coordinator, an immediate `z ↦ true` update changes the map and so
recalculates. -/
theorem immediate_update_recalc_iff_changed_witness :
    NodupKeys (mkCoordinator 10).pendingDemand ∧
    ((mkCoordinator 10).updateDemand "z" true true envOn).2.isSome = true :=
  ⟨by simp [NodupKeys, mkCoordinator],
    (immediate_update_recalc_iff_changed (mkCoordinator 10) "z" true envOn
      (by simp [NodupKeys, mkCoordinator])).2.2.2.mpr
      ⟨"z", by simp [mkCoordinator, alistSet, alistGet?]⟩⟩

end Vesta

namespace Vesta

theorem canAttempt_closed (cb : CircuitBreaker) (h : cb.state = .closed)
    (now : ℚ) : cb.canAttempt now = (true, cb) := by
  unfold CircuitBreaker.canAttempt CircuitBreaker.canAttemptHalfOpen
  simp [h]

theorem recordSuccess_idem (cb : CircuitBreaker) :
    cb.recordSuccess.recordSuccess = cb.recordSuccess := rfl

/-- C9: calling `forceOff` twice at the same instant, with the breaker
permitting the first attempt and the driver's turn-off succeeding both
times, leaves exactly the state of a single `forceOff`: same state enum,
cooldown deadline, breaker, and retry bookkeeping. -/
theorem force_off_idempotent (c : Coordinator) (e₁ e₂ : Env)
    (hnow : e₂.now = e₁.now)
    (hb : (c.breaker.canAttempt e₁.now).1 = true)
    (h1 : e₁.offSuccess = true) (h2 : e₂.offSuccess = true) :
    (c.forceOff e₁).forceOff e₂ = c.forceOff e₁ := by
  obtain ⟨mc, dm, pd, bs, cu, br, ds, rs, ra⟩ := c
  simp only at hb ⊢
  have hca2 := canAttempt_closed ((br.canAttempt e₁.now).2.recordSuccess)
    rfl e₁.now
  unfold Coordinator.forceOff Coordinator.ensureBoilerOff
    Coordinator.turnBoilerOff Coordinator.cancelRetry
    Coordinator.enterCooldown
  by_cases hmc : mc ≤ 0 <;>
    simp [hb, h1, h2, hnow, hca2, recordSuccess_idem, hmc]

/-- Witness for `force_off_idempotent` on a fresh coordinator. -/
theorem force_off_idempotent_witness :
    envOn.now = envOn.now ∧
    ((mkCoordinator 10).breaker.canAttempt envOn.now).1 = true ∧
    ((mkCoordinator 10).forceOff envOn).forceOff envOn =
      (mkCoordinator 10).forceOff envOn :=
  ⟨rfl, rfl, force_off_idempotent (mkCoordinator 10) envOn envOn rfl rfl
    rfl rfl⟩

end Vesta
